import Mathlib

/-!
Shallow embedding of `str_enc_dec` from `src/dep11/utils.py`.

The source is Python 2.7 code (the comment in the file says it exists
"for python2.7"): it first tries `unicode(val, "UTF-8", errors='replace')`
catching `TypeError`, then tries `str(val)` catching `UnicodeEncodeError`,
and returns the resulting value.

Python 2.7 semantics embedded here:
  * `unicode(b, "UTF-8", errors='replace')` on a byte string decodes it
    with the CPython 2.7 UTF-8 codec, substituting U+FFFD for each maximal
    subsequence the codec rejects, and never raises; the 2.7 codec is more
    permissive than RFC 3629: it accepts UTF-8-encoded surrogates
    (0xED 0xA0-0xBF 0x80-0xBF) and decodes them to surrogate code points.
    On a `unicode` value or an `int` the call raises `TypeError`.
  * `str(u)` on a `unicode` value encodes it with the default ASCII codec:
    it yields the byte string of the same code points when they are all
    below 128 and raises `UnicodeEncodeError` otherwise; `str(n)` on an
    `int` yields the decimal byte string; `str(b)` on a byte string is the
    identity.

Values are modelled over the capability set the spec names: byte strings
(Python 2 `str`, lists of byte values), textual values (Python 2
`unicode`, lists of code points) and integers (the representative
"other-printable-object").
-/

/-- Python 2 runtime values relevant to `str_enc_dec`: byte strings
(Python 2 `str`), unicode strings (as lists of code points), and
integers. -/
inductive PyVal : Type where
  | bytes : List Nat → PyVal
  | text : List Nat → PyVal
  | int : Int → PyVal
  deriving DecidableEq, Repr

/-- The two exception classes the source code mentions. -/
inductive PyErr : Type where
  | typeError : PyErr
  | unicodeEncodeError : PyErr
  deriving DecidableEq, Repr

/-- Whether a byte is a UTF-8 continuation byte (0x80 - 0xBF). -/
def contByte (b : Nat) : Bool := 128 ≤ b && b ≤ 191

/-- Lower bound of the second byte of a multi-byte UTF-8 sequence, given
the lead byte (0xA0 after 0xE0, 0x90 after 0xF0, 0x80 otherwise). -/
def snd_lo (b : Nat) : Nat := if b = 224 then 160 else if b = 240 then 144 else 128

/-- Upper bound of the second byte of a multi-byte UTF-8 sequence, given
the lead byte (0x8F after 0xF4, 0xBF otherwise). Unlike Python 3, the
CPython 2.7 UTF-8 codec places no extra bound after a 0xED lead: it
accepts 0xA0 - 0xBF there and decodes UTF-8-encoded surrogates to
surrogate code points (its source carries the comment "XXX: surrogates
shouldn't be valid UTF-8!"). -/
def snd_hi (b : Nat) : Nat := if b = 244 then 143 else 191

/-- One step of UTF-8 decoding: given the next byte `b` and the remaining
bytes `rest`, return `(some codepoint, k)` when a well-formed sequence
starts here (`k` = how many bytes of `rest` it uses beyond `b`), or
`(none, k)` when the sequence is ill-formed, with `k` the length of its
maximal valid prefix beyond `b` (the bytes a `replace`-mode decoder
consumes together with `b` for a single U+FFFD). -/
def utf8Step1 (b : Nat) (rest : List Nat) : Option Nat × Nat :=
  if b < 128 then (some b, 0)
  else if 194 ≤ b ∧ b ≤ 223 then
    match rest with
    | b1 :: _ =>
      if contByte b1 then (some ((b - 192) * 64 + (b1 - 128)), 1) else (none, 0)
    | [] => (none, 0)
  else if 224 ≤ b ∧ b ≤ 239 then
    match rest with
    | b1 :: rest1 =>
      if snd_lo b ≤ b1 ∧ b1 ≤ snd_hi b then
        match rest1 with
        | b2 :: _ =>
          if contByte b2 then
            (some ((b - 224) * 4096 + (b1 - 128) * 64 + (b2 - 128)), 2)
          else (none, 1)
        | [] => (none, 1)
      else (none, 0)
    | [] => (none, 0)
  else if 240 ≤ b ∧ b ≤ 244 then
    match rest with
    | b1 :: rest1 =>
      if snd_lo b ≤ b1 ∧ b1 ≤ snd_hi b then
        match rest1 with
        | b2 :: rest2 =>
          if contByte b2 then
            match rest2 with
            | b3 :: _ =>
              if contByte b3 then
                (some ((b - 240) * 262144 + (b1 - 128) * 4096 + (b2 - 128) * 64 + (b3 - 128)), 3)
              else (none, 2)
            | [] => (none, 2)
          else (none, 1)
        | [] => (none, 1)
      else (none, 0)
    | [] => (none, 0)
  else (none, 0)

/-- Fuel-indexed UTF-8 decoding with `errors='replace'`: each ill-formed
maximal subsequence becomes U+FFFD (65533). With fuel at least the length
of the input the fuel never runs out, since every step consumes at least
one byte. -/
def utf8DecodeReplaceAux : Nat → List Nat → List Nat
  | _, [] => []
  | 0, _ :: _ => []
  | fuel + 1, b :: rest =>
    (utf8Step1 b rest).1.getD 65533 ::
      utf8DecodeReplaceAux fuel (rest.drop (utf8Step1 b rest).2)

/-- Fuel-indexed strict UTF-8 decoding: `some` of the code points when the
whole input is well-formed UTF-8, `none` otherwise. -/
def utf8DecodeStrictAux : Nat → List Nat → Option (List Nat)
  | _, [] => some []
  | 0, _ :: _ => none
  | fuel + 1, b :: rest =>
    match (utf8Step1 b rest).1 with
    | some cp =>
      (utf8DecodeStrictAux fuel (rest.drop (utf8Step1 b rest).2)).map (fun t => cp :: t)
    | none => none

/-- UTF-8 decoding with `errors='replace'` (the decoding `unicode(val,
"UTF-8", errors='replace')` performs on a byte string). -/
def utf8DecodeReplace (l : List Nat) : List Nat := utf8DecodeReplaceAux l.length l

/-- Strict UTF-8 decoding by the CPython 2.7 codec: `some` of the decoded
code points exactly on input the codec accepts (RFC 3629 plus
UTF-8-encoded surrogates). -/
def utf8DecodeStrict (l : List Nat) : Option (List Nat) := utf8DecodeStrictAux l.length l

/-- Validity per the spec's words "valid UTF-8", i.e. RFC 3629
well-formedness. The CPython 2.7 codec embedded in `utf8Step1` accepts
exactly the RFC-well-formed sequences plus one extra family, the
UTF-8-encoded surrogates 0xED 0xA0-0xBF 0x80-0xBF (it rejects every
overlong form, out-of-range lead and bad continuation byte), so a byte
string is RFC-valid iff the codec decodes it and no decoded code point
lies in the surrogate range U+D800 - U+DFFF. -/
def utf8ValidRFC (l : List Nat) : Bool :=
  match utf8DecodeStrict l with
  | some t => t.all (fun c => c < 55296 || 57343 < c)
  | none => false

/-- Fuel-indexed decimal digits of a natural number, as ASCII byte values.
Fuel `n + 1` always suffices. -/
def natDigitsAux : Nat → Nat → List Nat
  | 0, _ => []
  | fuel + 1, n =>
    if n < 10 then [48 + n] else natDigitsAux fuel (n / 10) ++ [48 + n % 10]

/-- Decimal digits of a natural number as ASCII byte values. -/
def natDigits (n : Nat) : List Nat := natDigitsAux (n + 1) n

/-- The byte string `str(n)` produces for an integer `n` in Python 2:
decimal digits, with a leading minus sign (byte 45) when negative. -/
def intRepr : Int → List Nat
  | Int.ofNat n => natDigits n
  | Int.negSucc n => 45 :: natDigits (n + 1)

/-- Embedding of `unicode(val, "UTF-8", errors='replace')`: byte strings
are decoded (never raising, thanks to the replace policy); unicode values
and integers raise `TypeError`. -/
def pyUnicode (v : PyVal) : Except PyErr PyVal :=
  match v with
  | PyVal.bytes b => Except.ok (PyVal.text (utf8DecodeReplace b))
  | PyVal.text _ => Except.error PyErr.typeError
  | PyVal.int _ => Except.error PyErr.typeError

/-- Embedding of Python 2 `str(val)`: a unicode value is encoded with the
default ASCII codec (raising `UnicodeEncodeError` when any code point is
128 or above), an integer becomes its decimal byte string, and a byte
string is returned unchanged. -/
def pyStr (v : PyVal) : Except PyErr PyVal :=
  match v with
  | PyVal.bytes b => Except.ok (PyVal.bytes b)
  | PyVal.text t =>
    match t.all (· < 128) with
    | true => Except.ok (PyVal.bytes t)
    | false => Except.error PyErr.unicodeEncodeError
  | PyVal.int n => Except.ok (PyVal.bytes (intRepr n))

/-- The first `try`/`except` of `str_enc_dec`: attempt
`unicode(val, "UTF-8", errors='replace')`; a `TypeError` is caught and
leaves `val` unchanged; any other exception propagates. -/
def decodeStage (v : PyVal) : Except PyErr PyVal :=
  match pyUnicode v with
  | Except.ok w => Except.ok w
  | Except.error PyErr.typeError => Except.ok v
  | Except.error e => Except.error e

/-- The second `try`/`except` of `str_enc_dec`: attempt `str(val)`; a
`UnicodeEncodeError` is caught and leaves `val` unchanged; any other
exception propagates. -/
def convertStage (v : PyVal) : Except PyErr PyVal :=
  match pyStr v with
  | Except.ok w => Except.ok w
  | Except.error PyErr.unicodeEncodeError => Except.ok v
  | Except.error e => Except.error e

/-- Embedding of `str_enc_dec`: the two guarded stages in sequence; an
uncaught exception from either stage propagates to the caller as
`Except.error`. -/
def str_enc_dec (v : PyVal) : Except PyErr PyVal :=
  match decodeStage v with
  | Except.error e => Except.error e
  | Except.ok v1 => convertStage v1

/-- The value held after the first `try`/`except` (always defined, since
the first stage only ever raises the caught `TypeError`). -/
def stage1 (v : PyVal) : PyVal :=
  match pyUnicode v with
  | Except.ok w => w
  | Except.error _ => v

/-- Whether a value is of the textual (`unicode`) type. -/
def isTextual : PyVal → Bool
  | PyVal.text _ => true
  | _ => false

/-- The character content of a value: bytes read as their code points
(Python 2 compares an ASCII `str` equal to the `unicode` of the same
characters), code points of a unicode value, decimal digits of an
integer. -/
def content : PyVal → List Nat
  | PyVal.bytes b => b
  | PyVal.text t => t
  | PyVal.int n => intRepr n

/-- State-threaded form of `unicode(val, "UTF-8", errors='replace')`: the
call reads no ambient state and performs no I/O, so it returns the caller
state `s` unchanged next to its result. -/
def pyUnicodeRun {σ : Type} (s : σ) (v : PyVal) : σ × Except PyErr PyVal :=
  (s, pyUnicode v)

/-- State-threaded form of Python 2 `str(val)`: also touches no ambient
state. -/
def pyStrRun {σ : Type} (s : σ) (v : PyVal) : σ × Except PyErr PyVal :=
  (s, pyStr v)

/-- State-threaded form of the second `try`/`except` of `str_enc_dec`. -/
def convertStageRun {σ : Type} (s : σ) (v : PyVal) : σ × Except PyErr PyVal :=
  match pyStrRun s v with
  | (s1, Except.ok w) => (s1, Except.ok w)
  | (s1, Except.error PyErr.unicodeEncodeError) => (s1, Except.ok v)
  | (s1, Except.error e) => (s1, Except.error e)

/-- State-threaded form of `str_enc_dec`: the two guarded stages in
sequence, threading an arbitrary caller state `σ` through every
primitive. -/
def str_enc_dec_run {σ : Type} (s : σ) (v : PyVal) : σ × Except PyErr PyVal :=
  match pyUnicodeRun s v with
  | (s1, Except.ok w) => convertStageRun s1 w
  | (s1, Except.error PyErr.typeError) => convertStageRun s1 v
  | (s1, Except.error e) => (s1, Except.error e)

/-! Helper lemmas. -/

theorem decodeStage_eq (v : PyVal) : decodeStage v = Except.ok (stage1 v) := by
  cases v <;> rfl

theorem str_enc_dec_eq (v : PyVal) : str_enc_dec v = convertStage (stage1 v) := by
  cases v <;> rfl

theorem utf8Step1_ascii (b : Nat) (rest : List Nat) (h : b < 128) :
    utf8Step1 b rest = (some b, 0) := by
  simp [utf8Step1, h]

theorem utf8Aux_strict_some (fuel : Nat) :
    ∀ l t, utf8DecodeStrictAux fuel l = some t → utf8DecodeReplaceAux fuel l = t := by
  induction fuel with
  | zero =>
    intro l t h
    cases l with
    | nil =>
      simp only [utf8DecodeStrictAux, Option.some.injEq] at h
      simp [utf8DecodeReplaceAux, ← h]
    | cons b rest => simp [utf8DecodeStrictAux] at h
  | succ fuel ih =>
    intro l t h
    cases l with
    | nil =>
      simp only [utf8DecodeStrictAux, Option.some.injEq] at h
      simp [utf8DecodeReplaceAux, ← h]
    | cons b rest =>
      simp only [utf8DecodeStrictAux] at h
      cases hres : (utf8Step1 b rest).1 with
      | none => rw [hres] at h; exact absurd h (by simp)
      | some cp =>
        rw [hres] at h
        simp only [Option.map_eq_some'] at h
        obtain ⟨t1, hrec, ht⟩ := h
        simp only [utf8DecodeReplaceAux, hres, Option.getD_some, ih _ _ hrec, ← ht]

theorem utf8Aux_strict_none_mem (fuel : Nat) :
    ∀ l, l.length ≤ fuel → utf8DecodeStrictAux fuel l = none →
      65533 ∈ utf8DecodeReplaceAux fuel l := by
  induction fuel with
  | zero =>
    intro l hlen h
    cases l with
    | nil => simp [utf8DecodeStrictAux] at h
    | cons b rest => simp at hlen
  | succ fuel ih =>
    intro l hlen h
    cases l with
    | nil => simp [utf8DecodeStrictAux] at h
    | cons b rest =>
      simp only [utf8DecodeStrictAux] at h
      cases hres : (utf8Step1 b rest).1 with
      | none =>
        simp only [utf8DecodeReplaceAux, hres, Option.getD_none]
        exact List.mem_cons_self _ _
      | some cp =>
        rw [hres] at h
        simp only [Option.map_eq_none'] at h
        have hlen1 : (rest.drop (utf8Step1 b rest).2).length ≤ fuel := by
          simp only [List.length_cons] at hlen
          have := List.length_drop (utf8Step1 b rest).2 rest
          omega
        simp only [utf8DecodeReplaceAux, hres, Option.getD_some]
        exact List.mem_cons_of_mem _ (ih _ hlen1 h)

theorem utf8Aux_ascii (fuel : Nat) :
    ∀ l, l.all (· < 128) = true → l.length ≤ fuel →
      utf8DecodeStrictAux fuel l = some l ∧ utf8DecodeReplaceAux fuel l = l := by
  induction fuel with
  | zero =>
    intro l hall hlen
    cases l with
    | nil => exact ⟨rfl, rfl⟩
    | cons b rest => simp at hlen
  | succ fuel ih =>
    intro l hall hlen
    cases l with
    | nil => exact ⟨rfl, rfl⟩
    | cons b rest =>
      simp only [List.all_cons, Bool.and_eq_true, decide_eq_true_eq] at hall
      obtain ⟨hb, hrest⟩ := hall
      have hstep := utf8Step1_ascii b rest hb
      have hlen1 : rest.length ≤ fuel := by
        simp only [List.length_cons] at hlen; omega
      obtain ⟨ihs, ihr⟩ := ih rest hrest hlen1
      constructor
      · simp only [utf8DecodeStrictAux, hstep, List.drop_zero, ihs, Option.map_some']
      · simp only [utf8DecodeReplaceAux, hstep, List.drop_zero, ihr, Option.getD_some]

theorem utf8_strict_some (l t : List Nat) (h : utf8DecodeStrict l = some t) :
    utf8DecodeReplace l = t :=
  utf8Aux_strict_some l.length l t h

theorem utf8_strict_none_mem (l : List Nat) (h : utf8DecodeStrict l = none) :
    65533 ∈ utf8DecodeReplace l :=
  utf8Aux_strict_none_mem l.length l (le_refl _) h

theorem utf8_replace_ascii (l : List Nat) (h : l.all (· < 128) = true) :
    utf8DecodeReplace l = l :=
  (utf8Aux_ascii l.length l h (le_refl _)).2

theorem natDigitsAux_ascii (fuel : Nat) :
    ∀ n, (natDigitsAux fuel n).all (· < 128) = true := by
  induction fuel with
  | zero => intro n; rfl
  | succ fuel ih =>
    intro n
    by_cases h : n < 10
    · simp only [natDigitsAux, if_pos h, List.all_cons, List.all_nil, Bool.and_true,
        decide_eq_true_eq]
      omega
    · have hm : n % 10 < 10 := Nat.mod_lt _ (by omega)
      simp only [natDigitsAux, if_neg h, List.all_append, ih (n / 10), List.all_cons,
        List.all_nil, Bool.and_true, Bool.true_and, decide_eq_true_eq]
      omega

theorem intRepr_ascii (n : Int) : (intRepr n).all (· < 128) = true := by
  cases n with
  | ofNat m => exact natDigitsAux_ascii _ _
  | negSucc m =>
    simp only [intRepr, List.all_cons, Bool.and_eq_true, decide_eq_true_eq]
    exact ⟨by omega, natDigitsAux_ascii _ _⟩


theorem stage1_bytes (b : List Nat) :
    stage1 (PyVal.bytes b) = PyVal.text (utf8DecodeReplace b) := rfl

theorem stage1_text (t : List Nat) : stage1 (PyVal.text t) = PyVal.text t := rfl

theorem stage1_int (n : Int) : stage1 (PyVal.int n) = PyVal.int n := rfl

theorem convertStage_bytes (b : List Nat) :
    convertStage (PyVal.bytes b) = Except.ok (PyVal.bytes b) := rfl

theorem convertStage_int (n : Int) :
    convertStage (PyVal.int n) = Except.ok (PyVal.bytes (intRepr n)) := rfl

theorem convertStage_text_pos (t : List Nat) (h : t.all (· < 128) = true) :
    convertStage (PyVal.text t) = Except.ok (PyVal.bytes t) := by
  simp only [convertStage, pyStr, h]

theorem convertStage_text_neg (t : List Nat) (h : t.all (· < 128) = false) :
    convertStage (PyVal.text t) = Except.ok (PyVal.text t) := by
  simp only [convertStage, pyStr, h]

theorem convertStage_isOk (v : PyVal) : (convertStage v).isOk = true := by
  cases v with
  | bytes b => rfl
  | int n => rfl
  | text t =>
    cases hall : t.all (· < 128) with
    | true => rw [convertStage_text_pos t hall]; rfl
    | false => rw [convertStage_text_neg t hall]; rfl

theorem str_enc_dec_shape (v r : PyVal) (h : str_enc_dec v = Except.ok r) :
    (∃ b, r = PyVal.bytes b ∧ b.all (· < 128) = true) ∨
    (∃ t, r = PyVal.text t ∧ t.all (· < 128) = false) := by
  rw [str_enc_dec_eq] at h
  cases v with
  | bytes b =>
    rw [stage1_bytes] at h
    cases hall : (utf8DecodeReplace b).all (· < 128) with
    | true =>
      rw [convertStage_text_pos _ hall] at h
      injection h with h2
      subst h2
      exact Or.inl ⟨_, rfl, hall⟩
    | false =>
      rw [convertStage_text_neg _ hall] at h
      injection h with h2
      subst h2
      exact Or.inr ⟨_, rfl, hall⟩
  | text t =>
    rw [stage1_text] at h
    cases hall : t.all (· < 128) with
    | true =>
      rw [convertStage_text_pos _ hall] at h
      injection h with h2
      subst h2
      exact Or.inl ⟨_, rfl, hall⟩
    | false =>
      rw [convertStage_text_neg _ hall] at h
      injection h with h2
      subst h2
      exact Or.inr ⟨_, rfl, hall⟩
  | int n =>
    rw [stage1_int, convertStage_int] at h
    injection h with h2
    subst h2
    exact Or.inl ⟨_, rfl, intRepr_ascii n⟩

theorem str_enc_dec_ascii_bytes (b : List Nat) (h : b.all (· < 128) = true) :
    str_enc_dec (PyVal.bytes b) = Except.ok (PyVal.bytes b) := by
  rw [str_enc_dec_eq, stage1_bytes, utf8_replace_ascii b h, convertStage_text_pos b h]

theorem str_enc_dec_nonascii_text (t : List Nat) (h : t.all (· < 128) = false) :
    str_enc_dec (PyVal.text t) = Except.ok (PyVal.text t) := by
  rw [str_enc_dec_eq, stage1_text, convertStage_text_neg t h]

theorem convertStageRun_eq {σ : Type} (s : σ) (v : PyVal) :
    convertStageRun s v = (s, convertStage v) := by
  cases v with
  | bytes b => rfl
  | int n => rfl
  | text t =>
    cases hall : t.all (· < 128) with
    | true => simp only [convertStageRun, pyStrRun, pyStr, hall, convertStage]
    | false => simp only [convertStageRun, pyStrRun, pyStr, hall, convertStage]

/-! Claim theorems. -/

/-- C1: for every input value, `str_enc_dec` returns normally: both
anticipated failure modes (malformed bytes via the replace policy,
redundant conversion via the two `except` clauses) are caught inside the
function, and no exception propagates to the caller. -/
theorem str_enc_dec_never_raises (v : PyVal) : (str_enc_dec v).isOk = true := by
  rw [str_enc_dec_eq]
  exact convertStage_isOk (stage1 v)

/-- C1 witness: `str_enc_dec` returns normally on the invalid byte string
`b'\xff\xfe'`. -/
theorem str_enc_dec_never_raises_witness :
    (str_enc_dec (PyVal.bytes [255, 254])).isOk = true :=
  str_enc_dec_never_raises (PyVal.bytes [255, 254])

/-- C2 counterexample: on the integer input `42` the canonical-conversion
step `str(val)` succeeds (so this is not the fallback path), yet the
returned value is the byte string "42" (Python 2 `str`), which is not of
the textual (`unicode`) type, nor is it the pre-conversion value from the
decode step. -/
theorem str_enc_dec_not_always_textual :
    str_enc_dec (PyVal.int 42) = Except.ok (PyVal.bytes [52, 50]) ∧
    isTextual (PyVal.bytes [52, 50]) = false ∧
    (pyStr (stage1 (PyVal.int 42))).isOk = true ∧
    stage1 (PyVal.int 42) ≠ PyVal.bytes [52, 50] := by
  refine ⟨rfl, rfl, rfl, ?_⟩
  decide

/-- C2 amended: the returned value is of the textual (`unicode`) type
exactly in the fallback path, where the canonical-conversion step fails on
the (textual) decode-step value and that value is returned as-is; whenever
the conversion step succeeds, the returned value is a byte string (Python
2 `str`). -/
theorem str_enc_dec_textual_iff_fallback (v : PyVal) :
    (∃ b, str_enc_dec v = Except.ok (PyVal.bytes b)) ∨
    (isTextual (stage1 v) = true ∧ (pyStr (stage1 v)).isOk = false ∧
     str_enc_dec v = Except.ok (stage1 v)) := by
  rw [str_enc_dec_eq]
  cases v with
  | bytes b =>
    rw [stage1_bytes]
    cases hall : (utf8DecodeReplace b).all (· < 128) with
    | true => exact Or.inl ⟨_, convertStage_text_pos _ hall⟩
    | false =>
      refine Or.inr ⟨rfl, ?_, convertStage_text_neg _ hall⟩
      simp only [pyStr, hall]
      rfl
  | text t =>
    rw [stage1_text]
    cases hall : t.all (· < 128) with
    | true => exact Or.inl ⟨_, convertStage_text_pos _ hall⟩
    | false =>
      refine Or.inr ⟨rfl, ?_, convertStage_text_neg _ hall⟩
      simp only [pyStr, hall]
      rfl
  | int n =>
    rw [stage1_int]
    exact Or.inl ⟨_, convertStage_int n⟩

/-- C2 amended, witness at the integer input `42` (conversion succeeds: a
byte string comes back). -/
theorem str_enc_dec_textual_iff_fallback_witness :
    (∃ b, str_enc_dec (PyVal.int 42) = Except.ok (PyVal.bytes b)) ∨
    (isTextual (stage1 (PyVal.int 42)) = true ∧
     (pyStr (stage1 (PyVal.int 42))).isOk = false ∧
     str_enc_dec (PyVal.int 42) = Except.ok (stage1 (PyVal.int 42))) :=
  str_enc_dec_textual_iff_fallback (PyVal.int 42)

/-- C3: on a byte-string input that is well-formed UTF-8, `str_enc_dec`
returns a value whose character content is exactly the UTF-8 decoding of
the input. -/
theorem str_enc_dec_valid_utf8 (b t : List Nat) (h : utf8DecodeStrict b = some t) :
    ∃ r, str_enc_dec (PyVal.bytes b) = Except.ok r ∧ content r = t := by
  have hrep : utf8DecodeReplace b = t := utf8_strict_some b t h
  rw [str_enc_dec_eq, stage1_bytes, hrep]
  cases hall : t.all (· < 128) with
  | true => exact ⟨PyVal.bytes t, convertStage_text_pos t hall, rfl⟩
  | false => exact ⟨PyVal.text t, convertStage_text_neg t hall, rfl⟩

/-- C3 witness: the UTF-8 encoding of "héllo" (bytes 68 C3 A9 6C 6C 6F) is
mapped to the text "héllo" (code points 104 233 108 108 111). -/
theorem str_enc_dec_valid_utf8_witness :
    utf8DecodeStrict [104, 195, 169, 108, 108, 111] = some [104, 233, 108, 108, 111] ∧
    ∃ r, str_enc_dec (PyVal.bytes [104, 195, 169, 108, 108, 111]) = Except.ok r ∧
      content r = [104, 233, 108, 108, 111] :=
  ⟨by decide, str_enc_dec_valid_utf8 _ _ (by decide)⟩

/-- C4: on an input that is already textual, `str_enc_dec` returns a value
textually equal to the input (the decode step is a no-op on textual
input: its `TypeError` is caught and the value passes through). -/
theorem str_enc_dec_text_identity (t : List Nat) :
    ∃ r, str_enc_dec (PyVal.text t) = Except.ok r ∧ content r = t := by
  rw [str_enc_dec_eq, stage1_text]
  cases hall : t.all (· < 128) with
  | true => exact ⟨PyVal.bytes t, convertStage_text_pos t hall, rfl⟩
  | false => exact ⟨PyVal.text t, convertStage_text_neg t hall, rfl⟩

/-- C4 witness: the text "héllo" comes back textually unchanged. -/
theorem str_enc_dec_text_identity_witness :
    ∃ r, str_enc_dec (PyVal.text [104, 233, 108, 108, 111]) = Except.ok r ∧
      content r = [104, 233, 108, 108, 111] :=
  str_enc_dec_text_identity [104, 233, 108, 108, 111]

/-- C5 counterexample: the byte string 0xED 0xA0 0x80 is not valid UTF-8
(it is the UTF-8-encoded surrogate U+D800, ill-formed per RFC 3629), yet
`str_enc_dec` returns the text consisting of the lone surrogate code
point 55296 and no replacement character at all: the CPython 2.7 codec
decodes encoded surrogates instead of replacing them. -/
theorem str_enc_dec_surrogate_no_replacement :
    utf8ValidRFC [237, 160, 128] = false ∧
    str_enc_dec (PyVal.bytes [237, 160, 128]) = Except.ok (PyVal.text [55296]) ∧
    65533 ∉ content (PyVal.text [55296]) := by
  refine ⟨rfl, rfl, ?_⟩
  decide

/-- C5 amended: on a byte-string input containing subsequences the
CPython 2.7 UTF-8 codec rejects (ill-formed per RFC 3629 other than
UTF-8-encoded surrogates, which this codec accepts and decodes to
surrogate code points), `str_enc_dec` raises nothing and returns the text
produced by the replace-mode decoder, in which each maximal rejected
subsequence became U+FFFD; in particular U+FFFD (65533) occurs in the
output. -/
theorem str_enc_dec_invalid_utf8 (b : List Nat) (h : utf8DecodeStrict b = none) :
    str_enc_dec (PyVal.bytes b) = Except.ok (PyVal.text (utf8DecodeReplace b)) ∧
    65533 ∈ utf8DecodeReplace b := by
  have hmem : 65533 ∈ utf8DecodeReplace b := utf8_strict_none_mem b h
  have hall : (utf8DecodeReplace b).all (· < 128) = false := by
    cases hc : (utf8DecodeReplace b).all (· < 128) with
    | false => rfl
    | true =>
      have h1 := List.all_eq_true.mp hc 65533 hmem
      simp at h1
  exact ⟨by rw [str_enc_dec_eq, stage1_bytes, convertStage_text_neg _ hall], hmem⟩

/-- C5 witness: the invalid byte string `b'\xff\xfe'` yields the text
U+FFFD U+FFFD with no exception. -/
theorem str_enc_dec_invalid_utf8_witness :
    utf8DecodeStrict [255, 254] = none ∧
    str_enc_dec (PyVal.bytes [255, 254]) =
      Except.ok (PyVal.text (utf8DecodeReplace [255, 254])) ∧
    utf8DecodeReplace [255, 254] = [65533, 65533] ∧
    65533 ∈ utf8DecodeReplace [255, 254] := by
  have h := str_enc_dec_invalid_utf8 [255, 254] (by decide)
  exact ⟨by decide, h.1, by decide, h.2⟩

/-- C6: `str_enc_dec` is idempotent: applying it to a value it returned
returns that value again. -/
theorem str_enc_dec_idempotent (v r : PyVal) (h : str_enc_dec v = Except.ok r) :
    str_enc_dec r = Except.ok r := by
  rcases str_enc_dec_shape v r h with ⟨b, rfl, hb⟩ | ⟨t, rfl, ht⟩
  · exact str_enc_dec_ascii_bytes b hb
  · exact str_enc_dec_nonascii_text t ht

/-- C6 witness: `str_enc_dec 42` returns the byte string "42", on which a
second application is the identity. -/
theorem str_enc_dec_idempotent_witness :
    str_enc_dec (PyVal.bytes [52, 50]) = Except.ok (PyVal.bytes [52, 50]) :=
  str_enc_dec_idempotent (PyVal.int 42) (PyVal.bytes [52, 50]) rfl

/-- C7: when the canonical-conversion step `str(val)` fails with
`UnicodeEncodeError`, the failure is swallowed and `str_enc_dec` returns
the decode-step value unchanged. -/
theorem str_enc_dec_conversion_fallback (v : PyVal)
    (h : pyStr (stage1 v) = Except.error PyErr.unicodeEncodeError) :
    str_enc_dec v = Except.ok (stage1 v) := by
  rw [str_enc_dec_eq]
  simp only [convertStage, h]

/-- C7 witness: on the non-ASCII text with code point 233 the conversion
step fails and the decode-step value comes back unchanged. -/
theorem str_enc_dec_conversion_fallback_witness :
    str_enc_dec (PyVal.text [233]) = Except.ok (stage1 (PyVal.text [233])) :=
  str_enc_dec_conversion_fallback (PyVal.text [233]) rfl

/-- C8: on the integer input `42` the function returns the string "42"
(character content 52 50, the digits "4" "2"). -/
theorem str_enc_dec_int42 :
    str_enc_dec (PyVal.int 42) = Except.ok (PyVal.bytes [52, 50]) ∧
    content (PyVal.bytes [52, 50]) = [52, 50] :=
  ⟨rfl, rfl⟩

/-- C9: `str_enc_dec` is pure and deterministic: threading an arbitrary
caller state through both stages returns that state unchanged, and the
value result is the same function of the input value alone, so two calls
on equal inputs return equal results and no shared state is read or
written. -/
theorem str_enc_dec_pure {σ : Type} (s : σ) (v : PyVal) :
    str_enc_dec_run s v = (s, str_enc_dec v) := by
  cases v with
  | bytes b =>
    show convertStageRun s (PyVal.text (utf8DecodeReplace b)) = _
    rw [convertStageRun_eq, str_enc_dec_eq, stage1_bytes]
  | text t =>
    show convertStageRun s (PyVal.text t) = _
    rw [convertStageRun_eq, str_enc_dec_eq, stage1_text]
  | int n =>
    show convertStageRun s (PyVal.int n) = _
    rw [convertStageRun_eq, str_enc_dec_eq, stage1_int]

/-- C9 witness: with a numeric caller state 0 and input `42`, the state
comes back untouched next to the pure result. -/
theorem str_enc_dec_pure_witness :
    str_enc_dec_run (0 : Nat) (PyVal.int 42) = ((0 : Nat), str_enc_dec (PyVal.int 42)) :=
  str_enc_dec_pure 0 (PyVal.int 42)

/-- C10: on a textual input consisting only of ASCII code points, the
canonical-conversion step succeeds and changes the value's type: the
result is the byte string (Python 2 `str`) encoding of the input, not a
textual value, though textually equal to the input. -/
theorem str_enc_dec_ascii_text_to_bytes (t : List Nat) (h : t.all (· < 128) = true) :
    str_enc_dec (PyVal.text t) = Except.ok (PyVal.bytes t) ∧
    isTextual (PyVal.bytes t) = false ∧ content (PyVal.bytes t) = t := by
  refine ⟨?_, rfl, rfl⟩
  rw [str_enc_dec_eq, stage1_text, convertStage_text_pos t h]

/-- C10 witness: the ASCII text "hi" (code points 104 105) becomes the
byte string "hi". -/
theorem str_enc_dec_ascii_text_to_bytes_witness :
    str_enc_dec (PyVal.text [104, 105]) = Except.ok (PyVal.bytes [104, 105]) ∧
    isTextual (PyVal.bytes [104, 105]) = false ∧
    content (PyVal.bytes [104, 105]) = [104, 105] :=
  str_enc_dec_ascii_text_to_bytes [104, 105] (by decide)
